import Mathlib

/-!
Shallow embedding of the pycassa connection pool (`src/pycassa/pool.py` and
`src/connection.py`) together with proofs about its acquisition / return
protocol, listener dispatch, and the Bounded-Queue strategy counters.

Sessions, listeners, handles and records are identified by natural numbers;
the Python exceptions that the proofs distinguish are the constructors of
`Pycassa.Err`.  Python exceptions leave already-performed mutations in
place, so every fallible operation returns its (possibly mutated) state
together with an `Option Err` outcome (`none` = normal return).
-/

namespace Pycassa

/-- Errors distinguished by the embedded operations: `InvalidRequestError`
("This connection is closed"), Python's `AttributeError`, and the
queue-pool `TimeoutError`. -/
inductive Err where
  | invalidRequest
  | attributeError
  | timeout
  deriving DecidableEq, Repr

/-! ## Session factory (`Pool.create`, `SingleConnection._find_server`) -/

/-- `SingleConnection._find_server` (src/connection.py lines 103-110): walk the
connection's server list in order, keeping the first server whose transport
opens (`ok s = true`); when every server fails, raise `NoServerAvailable`
(modelled as `none`).  `ok` is the oracle saying which servers open. -/
def find_server (ok : String → Bool) : List String → Option String
  | [] => none
  | s :: rest => if ok s then some s else find_server ok rest

/-- The base-pool fields that `Pool.create` (src/pycassa/pool.py lines 182-186)
reads and writes: the server list and the round-robin cursor
`_list_position`. -/
structure CreateState where
  server_list : List String
  list_position : Nat
  deriving DecidableEq, Repr

/-- `Pool.create` (src/pycassa/pool.py lines 182-186): select
`server_list[_list_position % len(server_list)]`, advance the cursor by one,
and construct the connection with the ONE-ELEMENT server list `[server]`.
`SingleConnection` opens its transport lazily on first use, so creation is
modelled together with that first `_find_server` walk over the one-element
list it was given.  `keyspace` and `credentials` play no part in server
selection and are omitted. -/
def poolCreate (ok : String → Bool) (p : CreateState) : Option String × CreateState :=
  let server := p.server_list.getD (p.list_position % p.server_list.length) ""
  (find_server ok [server], { p with list_position := p.list_position + 1 })

/-! ## Return protocol (`_finalize_fairy`) -/

/-- The `_ConnectionRecord` field read by `_finalize_fairy`'s early-return
check: `fairy`, the weak reference to the handle that currently owns the
record (weak references are identified by numbers). -/
structure RecordSt where
  fairy : Option Nat
  deriving DecidableEq, Repr

/-- Observable effects of one `_finalize_fairy` run. -/
structure FinOut where
  /-- the record's fairy field was cleared, `checkin` listeners fired and
  `pool.return_conn(connection_record)` was called -/
  recordReturned : Bool
  /-- `connection.close()` was reached (detached case) -/
  connClosed : Bool
  /-- `connection.rollback()` was attempted (`_reset_on_return` path) -/
  rollbackAttempted : Bool
  /-- `connection_record.invalidate(e)` ran because rollback raised -/
  recordInvalidated : Bool
  deriving DecidableEq, Repr

/-- Body of `_finalize_fairy` (src/pycassa/pool.py lines 273-292) after the
early-return check: best-effort rollback (a failure, `rollbackOk = false`,
invalidates the record and is then swallowed), direct close of a detached
connection, then — whenever a record is present — clear its fairy
back-reference, fire `checkin` listeners and return it to the strategy.
Non-fatal exceptions only (`SystemExit` / `KeyboardInterrupt` re-raising is
out of scope). -/
def finalize_body (reset_on_return rollbackOk : Bool) (conn : Option Nat)
    (rec : Option RecordSt) : FinOut :=
  let rbAtt := conn.isSome && reset_on_return
  let rbFail := rbAtt && !rollbackOk
  { recordReturned := rec.isSome
    connClosed := conn.isSome && rec.isNone && !rbFail
    rollbackAttempted := rbAtt
    recordInvalidated := rbFail && rec.isSome }

/-- `_finalize_fairy` (src/pycassa/pool.py lines 265-292).  `ref` is the weak
reference passed by the finalizer (`none` when called from `_close` /
`invalidate`), `rec` the record argument, `isAssertion` whether the pool is
an `AssertionPool`.  The source first runs `_refs.discard` (leak-set
bookkeeping, no observable effect here) and then:

    if ref is not None and (connection_record.fairy is not ref
                            or isinstance(pool, AssertionPool)):
        return

so with a fired weak reference the body is skipped whenever the record's
back-reference differs from `ref` OR the pool is an AssertionPool. -/
def finalize_fairy (reset_on_return isAssertion rollbackOk : Bool)
    (conn : Option Nat) (rec : Option RecordSt) (ref : Option Nat) : FinOut :=
  match ref with
  | some r =>
      if rec.elim none RecordSt.fairy ≠ some r ∨ isAssertion = true then
        { recordReturned := false, connClosed := false,
          rollbackAttempted := false, recordInvalidated := false }
      else
        finalize_body reset_on_return rollbackOk conn rec
  | none => finalize_body reset_on_return rollbackOk conn rec

/-! ## Theorems for C1 and C3 -/

/-- C1, counterexample.  The claim says that for an AssertionPool the
back-reference check is exempted "and the record is always returned to the
strategy".  The code does the opposite: with a fired weak reference on an
AssertionPool — even one whose record back-reference matches the ref —
`_finalize_fairy` returns early and the record is NOT handed back. -/
theorem C1_counterexample :
    (finalize_fairy true true true (some 0) (some ⟨some 7⟩) (some 7)).recordReturned
      = false := by
  decide

/-- C1, amended: in the return protocol, when the weak reference fired the
record is handed back to the strategy iff the record's live-handle
back-reference points to this handle AND the pool is not an AssertionPool
(so for an AssertionPool a fired weak reference never returns the record);
when no weak reference is involved (final close, explicit invalidate) an
attached record is always handed back. -/
theorem C1_amended_finalize_return (ror ia rb : Bool) (conn : Option Nat)
    (rec : RecordSt) (r : Nat) :
    ((finalize_fairy ror ia rb conn (some rec) (some r)).recordReturned
        = (decide (rec.fairy = some r) && !ia)) ∧
    (finalize_fairy ror ia rb conn (some rec) none).recordReturned = true := by
  constructor
  · by_cases h : rec.fairy = some r <;> cases ia <;>
      simp [finalize_fairy, finalize_body, h]
  · simp [finalize_fairy, finalize_body]

/-- C3, counterexample.  Servers `["A", "B"]`, where `A` fails to open and
`B` opens fine, cursor at 0: the claim says the creation attempt must fall
over to `B` and succeed, failing with `NoServerAvailable` only when every
server fails.  But `Pool.create` hands the connection the one-element list
`[A]`, so the attempt fails even though `_find_server` over the full list
would have found `B`. -/
theorem C3_counterexample :
    (poolCreate (fun s => s == "B") ⟨["A", "B"], 0⟩).1 = none ∧
    find_server (fun s => s == "B") ["A", "B"] = some "B" := by
  constructor <;> rfl

/-- C3, amended: each session-creation attempt passes only the single
cursor-selected server to the connection, so it succeeds iff that one server
opens — no fail-over to the remaining servers happens within the attempt
(the cursor still advances by exactly one).  `_find_server` itself, over the
list it is given, does return the first working server and raises
`NoServerAvailable` exactly when every server of that list fails. -/
theorem C3_amended_single_server_create (ok : String → Bool) (p : CreateState) :
    ((poolCreate ok p).1 =
      if ok (p.server_list.getD (p.list_position % p.server_list.length) "")
      then some (p.server_list.getD (p.list_position % p.server_list.length) "")
      else none) ∧
    (poolCreate ok p).2.list_position = p.list_position + 1 ∧
    (∀ l : List String, find_server ok l = none ↔ ∀ s ∈ l, ok s = false) := by
  refine ⟨?_, rfl, ?_⟩
  · simp only [poolCreate, find_server]
  · intro l
    induction l with
    | nil => simp [find_server]
    | cons s rest ih => by_cases h : ok s <;> simp [find_server, h, ih]

/-- C3 witness: the amended statement evaluated at a concrete pool. -/
theorem C3_amended_single_server_create_witness :
    (poolCreate (fun s => s == "B") ⟨["A", "B"], 0⟩).1 =
      (if (fun s => s == "B")
            ((⟨["A", "B"], 0⟩ : CreateState).server_list.getD
              (0 % (⟨["A", "B"], 0⟩ : CreateState).server_list.length) "")
       then some ((⟨["A", "B"], 0⟩ : CreateState).server_list.getD
              (0 % (⟨["A", "B"], 0⟩ : CreateState).server_list.length) "")
       else none) :=
  (C3_amended_single_server_create (fun s => s == "B") ⟨["A", "B"], 0⟩).1

/-! ## Handle (`_ConnectionFairy`) and its record

The handle state below carries exactly the `_ConnectionFairy` fields the
claims touch (`connection`, `_connection_record`, `__counter`) plus the
record's own session field, a supply of fresh session identities for
`_ConnectionRecord.__connect`, and two observation logs: the checkout
listener invocations (`events`, pairs of listener and session) and the
number of `_ConnectionRecord.invalidate` calls.  The pool's `_recycle` is
`-1` (the default), so `get_connection`'s time-based recycle branch is never
taken and does not appear. -/

/-- `_ConnectionRecord` as seen from its fairy: just the `connection`
field (`none` right after `invalidate`). -/
structure RecSession where
  conn : Option Nat
  deriving DecidableEq, Repr

/-- `_ConnectionFairy` state (src/pycassa/pool.py lines 296-418). -/
structure FairySt where
  /-- `self.connection` -/
  connection : Option Nat
  /-- `self._connection_record` (`none` once closed or detached) -/
  record : Option RecSession
  /-- `self.__counter` -/
  counter : Int
  /-- fresh-session supply for `_ConnectionRecord.__connect` -/
  nextConn : Nat
  /-- log of checkout-listener invocations `(listener, session)` -/
  events : List (Nat × Nat)
  /-- number of `_ConnectionRecord.invalidate` calls so far -/
  recInvalidations : Nat
  deriving DecidableEq, Repr

/-- `_ConnectionRecord.invalidate` (src/pycassa/pool.py lines 212-221) as
called on the fairy's record: close the session (best effort) and set
`connection = None`.  When the fairy has no record the caller guards the
call (`if self._connection_record is not None`), modelled as a no-op. -/
def recInvalidate (st : FairySt) : FairySt :=
  match st.record with
  | some _ => { st with record := some ⟨none⟩,
                        recInvalidations := st.recInvalidations + 1 }
  | none => st

/-- `_ConnectionRecord.get_connection` (src/pycassa/pool.py lines 223-241)
with `_recycle = -1`: return the held session, re-opening a fresh one first
when it is `none`.  Returns the updated state and the session.  (With no
record the source would fault; that path is unreachable from `checkout`,
modelled as returning session 0 unchanged.) -/
def recGetConnection (st : FairySt) : FairySt × Nat :=
  match st.record with
  | some r =>
      match r.conn with
      | some c => (st, c)
      | none => ({ st with record := some ⟨some st.nextConn⟩,
                           nextConn := st.nextConn + 1 }, st.nextConn)
  | none => (st, 0)

/-- `_ConnectionFairy._close` (src/pycassa/pool.py lines 415-418): run
`_finalize_fairy(connection, record, pool)` — which, with no fired weak
reference, returns an attached record to the strategy or literally closes a
detached session — then clear both `connection` and `_connection_record`.
Strategy-side effects live in the strategy models below. -/
def fairyCloseInternal (st : FairySt) : FairySt :=
  { st with connection := none, record := none }

/-- The `for l in self._pool._on_checkout: l.checkout(...)` loop inside one
attempt (src/pycassa/pool.py lines 374-375): invoke the listeners in
registration order on session `c`, logging each invocation; a listener
with `disc l c = true` raises `DisconnectionError` after being invoked,
aborting the walk (`false` = an attempt that raised). -/
def runCheckoutListeners (disc : Nat → Nat → Bool) (c : Nat) :
    List Nat → FairySt → FairySt × Bool
  | [], st => (st, true)
  | l :: ls, st =>
      let st1 : FairySt := { st with events := st.events ++ [(l, c)] }
      if disc l c then (st1, false)
      else runCheckoutListeners disc c ls st1

/-- The listeners a failing attempt invokes: the passing ones up to and
including the first listener that raises `DisconnectionError` on `c`. -/
def invokedUpToFail (disc : Nat → Nat → Bool) (c : Nat) : List Nat → List Nat
  | [] => []
  | l :: ls => if disc l c then [l] else l :: invokedUpToFail disc c ls

/-- The `attempts = 2; while attempts > 0` loop of
`_ConnectionFairy.checkout` (src/pycassa/pool.py lines 371-386), fuelled by
`attempts`.  On a `DisconnectionError`, invalidate the record, reconnect via
`record.get_connection()`, decrement `attempts`.  When the fuel runs out:
`self.invalidate()` — record invalidated, connection cleared, `_close()` —
and `InvalidRequestError` is raised.  (The loop is only entered with a live
`connection`; the `none` arm is unreachable.) -/
def checkoutLoop (ls : List Nat) (disc : Nat → Nat → Bool) :
    Nat → FairySt → FairySt × Option Err
  | 0, st =>
      (fairyCloseInternal (recInvalidate st), some Err.invalidRequest)
  | n + 1, st =>
      match st.connection with
      | none => (st, none)
      | some c =>
          match runCheckoutListeners disc c ls st with
          | (st1, true) => (st1, none)
          | (st1, false) =>
              let st2 := recInvalidate st1
              let p := recGetConnection st2
              checkoutLoop ls disc n { p.1 with connection := some p.2 }

/-- `_ConnectionFairy.checkout` (src/pycassa/pool.py lines 362-386): raise
`InvalidRequestError` on a closed handle; increment `__counter`; return
immediately unless there are checkout listeners and the counter just became
1; otherwise run the two-attempt listener loop.  `ls` is `_on_checkout` in
registration order, `disc l c` whether listener `l` raises
`DisconnectionError` when passed session `c`. -/
def fairyCheckout (ls : List Nat) (disc : Nat → Nat → Bool) (st : FairySt) :
    FairySt × Option Err :=
  match st.connection with
  | none => (st, some Err.invalidRequest)
  | some _ =>
      let st1 : FairySt := { st with counter := st.counter + 1 }
      if ls = [] ∨ st1.counter ≠ 1 then (st1, none)
      else checkoutLoop ls disc 2 st1

/-- `_ConnectionFairy.close` (src/pycassa/pool.py lines 410-413): decrement
`__counter` unconditionally; when it reaches exactly 0, run `_close()`. -/
def fairyClose (st : FairySt) : FairySt :=
  let st1 : FairySt := { st with counter := st.counter - 1 }
  if st1.counter = 0 then fairyCloseInternal st1 else st1

/-- `_ConnectionFairy.invalidate` (src/pycassa/pool.py lines 345-357): raise
`InvalidRequestError` on a closed handle; otherwise invalidate the record
(when present), clear `connection`, and run `_close()`. -/
def fairyInvalidate (st : FairySt) : FairySt × Option Err :=
  match st.connection with
  | none => (st, some Err.invalidRequest)
  | some _ =>
      (fairyCloseInternal { recInvalidate st with connection := none }, none)

/-- `_ConnectionFairy.__getattr__` (src/pycassa/pool.py lines 359-360):
`return getattr(self.connection, key)` — a forwarded session operation
dispatches on the live session; on a closed handle `self.connection` is
`None` and the attribute lookup on `None` raises `AttributeError` (for any
session-operation name).  Returns the session the call is dispatched on. -/
def fairyForward (st : FairySt) : Except Err Nat :=
  match st.connection with
  | some c => .ok c
  | none => .error .attributeError

/-- The three outcomes of reading `_ConnectionFairy.info`. -/
inductive InfoRes where
  | recordInfo
  | detachedInfo
  | err (e : Err)
  deriving DecidableEq, Repr

/-- `_ConnectionFairy.info` (src/pycassa/pool.py lines 330-343): return the
record's info bag; if `self._connection_record` is `None` the attribute
access raises `AttributeError`, which the property turns into
`InvalidRequestError` when the session is gone too, and into the
handle-local `_detached_info` bag otherwise. -/
def fairyInfo (st : FairySt) : InfoRes :=
  match st.record with
  | some _ => .recordInfo
  | none =>
      match st.connection with
      | none => .err .invalidRequest
      | some _ => .detachedInfo

/-! ## Checkout listener protocol (C2) -/

/-- A listener walk in which no listener disconnects invokes every listener
in registration order on the given session and reports success. -/
theorem runCheckoutListeners_pass (disc : Nat → Nat → Bool) (c : Nat)
    (ls : List Nat) (st : FairySt) (h : ∀ l ∈ ls, disc l c = false) :
    runCheckoutListeners disc c ls st =
      ({ st with events := st.events ++ ls.map (fun l => (l, c)) }, true) := by
  induction ls generalizing st with
  | nil => simp [runCheckoutListeners]
  | cons l rest ih =>
      have hl : disc l c = false := h l (by simp)
      have hrest : ∀ x ∈ rest, disc x c = false := fun x hx => h x (by simp [hx])
      simp [runCheckoutListeners, hl, ih _ hrest]

/-- A listener walk containing a disconnecting listener invokes exactly the
listeners up to and including the first one that raises, and reports the
raise. -/
theorem runCheckoutListeners_fail (disc : Nat → Nat → Bool) (c : Nat)
    (ls : List Nat) (st : FairySt) (h : ¬ ∀ l ∈ ls, disc l c = false) :
    runCheckoutListeners disc c ls st =
      ({ st with events :=
          st.events ++ (invokedUpToFail disc c ls).map (fun l => (l, c)) },
        false) := by
  induction ls generalizing st with
  | nil => exact absurd (by simp) h
  | cons l rest ih =>
      cases hl : disc l c with
      | true => simp [runCheckoutListeners, invokedUpToFail, hl]
      | false =>
          have hrest : ¬ ∀ x ∈ rest, disc x c = false := by
            intro hall
            apply h
            intro x hx
            rcases List.mem_cons.mp hx with rfl | hx'
            · exact hl
            · exact hall x hx'
          simp [runCheckoutListeners, invokedUpToFail, hl, ih _ hrest]

theorem runCheckoutListeners_counter (disc : Nat → Nat → Bool) (c : Nat)
    (ls : List Nat) (st : FairySt) :
    ((runCheckoutListeners disc c ls st).1).counter = st.counter := by
  induction ls generalizing st with
  | nil => rfl
  | cons l rest ih =>
      cases hl : disc l c <;> simp [runCheckoutListeners, hl, ih]

theorem recInvalidate_counter (st : FairySt) :
    (recInvalidate st).counter = st.counter := by
  cases h : st.record <;> simp [recInvalidate, h]

theorem recGetConnection_counter (st : FairySt) :
    ((recGetConnection st).1).counter = st.counter := by
  cases h : st.record with
  | none => simp [recGetConnection, h]
  | some r => cases hc : r.conn <;> simp [recGetConnection, h, hc]

/-- The retry loop never touches the depth counter. -/
theorem checkoutLoop_counter (ls : List Nat) (disc : Nat → Nat → Bool)
    (n : Nat) (st : FairySt) :
    ((checkoutLoop ls disc n st).1).counter = st.counter := by
  induction n generalizing st with
  | zero => simp [checkoutLoop, fairyCloseInternal, recInvalidate_counter]
  | succ n ih =>
      cases hc : st.connection with
      | none => simp [checkoutLoop, hc]
      | some c =>
          have hcnt := runCheckoutListeners_counter disc c ls st
          cases hr : runCheckoutListeners disc c ls st with
          | mk st1 b =>
              rw [hr] at hcnt
              simp only [Prod.fst] at hcnt
              cases b with
              | true => simp [checkoutLoop, hc, hr, hcnt]
              | false =>
                  simp only [checkoutLoop, hc, hr]
                  rw [ih]
                  simp [recGetConnection_counter, recInvalidate_counter, hcnt]

/-- C2: `checkout()` invokes the checkout listeners only on the counter
transition 0 → 1, in registration order; a `DisconnectionError` from a
listener invalidates the record, reconnects via `record.get_connection()`
and retries the listeners, for two total attempts; if both attempts raise,
the handle is invalidated and closed and `checkout` fails with
`InvalidRequestError`.  The four conjuncts: (1) away from the 0 → 1
transition only the counter moves; (2) a clean first attempt fires every
listener, in order, on the current session; (3) a raising first attempt is
retried once on the session re-opened by the record, and succeeds when that
attempt is clean; (4) two raising attempts leave the handle closed and the
checkout failing with `InvalidRequestError`. -/
theorem C2_checkout_listener_protocol (ls : List Nat)
    (disc : Nat → Nat → Bool) (st : FairySt) (c : Nat) (r : RecSession)
    (hconn : st.connection = some c) (hrec : st.record = some r) :
    (st.counter ≠ 0 →
      fairyCheckout ls disc st = ({ st with counter := st.counter + 1 }, none)) ∧
    (st.counter = 0 → (∀ l ∈ ls, disc l c = false) →
      fairyCheckout ls disc st =
        ({ st with counter := st.counter + 1,
                   events := st.events ++ ls.map (fun l => (l, c)) }, none)) ∧
    (st.counter = 0 → (¬ ∀ l ∈ ls, disc l c = false) →
      (∀ l ∈ ls, disc l st.nextConn = false) →
      fairyCheckout ls disc st =
        ({ st with counter := st.counter + 1,
                   connection := some st.nextConn,
                   record := some ⟨some st.nextConn⟩,
                   nextConn := st.nextConn + 1,
                   recInvalidations := st.recInvalidations + 1,
                   events := st.events
                     ++ (invokedUpToFail disc c ls).map (fun l => (l, c))
                     ++ ls.map (fun l => (l, st.nextConn)) }, none)) ∧
    (st.counter = 0 → (¬ ∀ l ∈ ls, disc l c = false) →
      (¬ ∀ l ∈ ls, disc l st.nextConn = false) →
      (fairyCheckout ls disc st).2 = some Err.invalidRequest ∧
      (fairyCheckout ls disc st).1.connection = none ∧
      (fairyCheckout ls disc st).1.record = none) := by
  obtain ⟨conn, rec, cnt, nx, evs, inv⟩ := st
  simp only at hconn hrec
  subst hconn
  subst hrec
  simp only
  refine ⟨?_, ?_, ?_, ?_⟩
  · intro hne
    have h1 : cnt + 1 ≠ 1 := by omega
    simp [fairyCheckout, h1]
  · intro h0 hall
    subst h0
    by_cases hls : ls = []
    · subst hls
      simp [fairyCheckout]
    · have hpass := runCheckoutListeners_pass disc c ls
        ⟨some c, some r, 1, nx, evs, inv⟩ hall
      simp [fairyCheckout, hls, checkoutLoop, hpass]
  · intro h0 hfail hall2
    subst h0
    have hls : ls ≠ [] := by
      intro hls; exact hfail (by simp [hls])
    have hfa := runCheckoutListeners_fail disc c ls
      ⟨some c, some r, 1, nx, evs, inv⟩ hfail
    have hpa := runCheckoutListeners_pass disc nx ls
      ⟨some nx, some ⟨some nx⟩, 1, nx + 1,
        evs ++ (invokedUpToFail disc c ls).map (fun l => (l, c)),
        inv + 1⟩ hall2
    simp [fairyCheckout, hls, checkoutLoop, hfa,
          recInvalidate, recGetConnection, hpa, List.append_assoc]
  · intro h0 hfail1 hfail2
    subst h0
    have hls : ls ≠ [] := by
      intro hls; exact hfail1 (by simp [hls])
    have hfa := runCheckoutListeners_fail disc c ls
      ⟨some c, some r, 1, nx, evs, inv⟩ hfail1
    have hfb := runCheckoutListeners_fail disc nx ls
      ⟨some nx, some ⟨some nx⟩, 1, nx + 1,
        evs ++ (invokedUpToFail disc c ls).map (fun l => (l, c)),
        inv + 1⟩ hfail2
    simp [fairyCheckout, hls, checkoutLoop, hfa,
          recInvalidate, recGetConnection, hfb, fairyCloseInternal]

/-- C2 witness: a pool with one checkout listener that disconnects on the
original session 10 but accepts the re-opened session 20; the checkout
succeeds on the second attempt. -/
theorem C2_checkout_listener_protocol_witness :
    (fairyCheckout [5] (fun _ s => decide (s = 10))
        ⟨some 10, some ⟨some 10⟩, 0, 20, [], 0⟩).2 = none := by
  have h := C2_checkout_listener_protocol [5] (fun _ s => decide (s = 10))
    ⟨some 10, some ⟨some 10⟩, 0, 20, [], 0⟩ 10 ⟨some 10⟩ rfl rfl
  have h3 := h.2.2.1 rfl (by decide) (by decide)
  rw [h3]

/-! ## Depth counter under interleavings of `checkout()` / `close()` (C4) -/

/-- A holder call on the handle. -/
inductive FOp where
  | checkout
  | close
  deriving DecidableEq, Repr

/-- Handle state plus two ghost tallies: `nSucc` counts the `checkout()`
calls that got past the closed-handle guard (exactly the calls that
increment `__counter`; a `checkout()` on a closed handle raises before
touching the counter), `nClose` counts every `close()` call (the source
decrements unconditionally). -/
structure TraceSt where
  fairy : FairySt
  nSucc : Int
  nClose : Int
  deriving DecidableEq, Repr

def traceStep (ls : List Nat) (disc : Nat → Nat → Bool) (t : TraceSt) :
    FOp → TraceSt
  | .checkout =>
      { fairy := (fairyCheckout ls disc t.fairy).1,
        nSucc := t.nSucc + (if t.fairy.connection.isSome then 1 else 0),
        nClose := t.nClose }
  | .close =>
      { t with fairy := fairyClose t.fairy, nClose := t.nClose + 1 }

def traceRun (ls : List Nat) (disc : Nat → Nat → Bool) (t : TraceSt) :
    List FOp → TraceSt
  | [] => t
  | op :: ops => traceRun ls disc (traceStep ls disc t op) ops

/-- A freshly constructed handle as `pool.connect()` builds it
(src/pycassa/pool.py lines 303-320): session `c0` drawn through the record,
depth counter 0 (the holder's very first `checkout()` is part of the
trace). -/
def traceInit (c0 : Nat) : TraceSt :=
  { fairy := { connection := some c0, record := some ⟨some c0⟩, counter := 0,
               nextConn := c0 + 1, events := [], recInvalidations := 0 },
    nSucc := 0, nClose := 0 }

theorem fairyCheckout_counter (ls : List Nat) (disc : Nat → Nat → Bool)
    (st : FairySt) :
    ((fairyCheckout ls disc st).1).counter =
      st.counter + (if st.connection.isSome then 1 else 0) := by
  cases hc : st.connection with
  | none => simp [fairyCheckout, hc]
  | some c =>
      by_cases hls : ls = [] ∨ ¬st.counter = 0
      · simp [fairyCheckout, hc, hls]
      · simp [fairyCheckout, hc, hls, checkoutLoop_counter]

theorem fairyClose_counter (st : FairySt) :
    (fairyClose st).counter = st.counter - 1 := by
  by_cases h : st.counter - 1 = 0 <;> simp [fairyClose, fairyCloseInternal, h]

/-- The depth counter always equals the net ghost tally. -/
theorem traceRun_counter (ls : List Nat) (disc : Nat → Nat → Bool)
    (ops : List FOp) (t : TraceSt)
    (h : t.fairy.counter = t.nSucc - t.nClose) :
    (traceRun ls disc t ops).fairy.counter =
      (traceRun ls disc t ops).nSucc - (traceRun ls disc t ops).nClose := by
  induction ops generalizing t with
  | nil => exact h
  | cons op ops ih =>
      apply ih
      cases op with
      | checkout =>
          simp [traceStep, fairyCheckout_counter, h]
          ring
      | close =>
          simp [traceStep, fairyClose_counter, h]
          ring

/-- C4, counterexample.  The claim says the depth counter is ≥ 0 at every
instant for every interleaving of `checkout()` and `close()`.  But `close()`
decrements unconditionally, so the trace checkout, close, close drives the
counter to −1. -/
theorem C4_counterexample :
    ¬(0 ≤ (traceRun [] (fun _ _ => false) (traceInit 0)
        [FOp.checkout, FOp.close, FOp.close]).fairy.counter) := by
  decide

/-- C4, amended: at every instant the depth counter equals the number of
`checkout()` calls that got past the closed-handle guard minus the number of
`close()` calls — with no lower bound: the counter goes negative as soon as
the holder calls `close()` more often than it successfully called
`checkout()` (and a `checkout()` raising `InvalidRequestError` on a closed
handle does not count, since it raises before touching the counter). -/
theorem C4_amended_counter_net (ls : List Nat) (disc : Nat → Nat → Bool)
    (c0 : Nat) (ops : List FOp) :
    (traceRun ls disc (traceInit c0) ops).fairy.counter =
      (traceRun ls disc (traceInit c0) ops).nSucc -
      (traceRun ls disc (traceInit c0) ops).nClose :=
  traceRun_counter ls disc ops (traceInit c0) (by simp [traceInit])

/-! ## Operations on a closed handle (C5) -/

/-- C5, counterexample.  Close a checked-out handle (its session reference
becomes `none`); the claim says every subsequent operation — including a
forwarded session operation — fails with `InvalidRequestError`, but the
forwarded operation goes through `__getattr__`, which evaluates
`getattr(None, key)` and raises `AttributeError` instead. -/
theorem C5_counterexample :
    (fairyClose (fairyCheckout [] (fun _ _ => false)
        (traceInit 0).fairy).1).connection = none ∧
    fairyForward (fairyClose (fairyCheckout [] (fun _ _ => false)
        (traceInit 0).fairy).1) = Except.error Err.attributeError ∧
    Err.attributeError ≠ Err.invalidRequest := by
  refine ⟨rfl, rfl, by decide⟩

/-- C5, amended: on a handle whose session reference became `none` (final
close, invalidate, and detach-then-close all also clear the record
back-pointer), `checkout()`, `invalidate()` and the `info` property fail
with `InvalidRequestError`, while a forwarded session operation fails with
`AttributeError` (attribute lookup on `None`), not `InvalidRequestError`. -/
theorem C5_amended_closed_handle (ls : List Nat) (disc : Nat → Nat → Bool)
    (st : FairySt) (h1 : st.connection = none) (h2 : st.record = none) :
    fairyCheckout ls disc st = (st, some Err.invalidRequest) ∧
    fairyInvalidate st = (st, some Err.invalidRequest) ∧
    fairyInfo st = InfoRes.err Err.invalidRequest ∧
    fairyForward st = Except.error Err.attributeError := by
  refine ⟨?_, ?_, ?_, ?_⟩ <;>
    simp [fairyCheckout, fairyInvalidate, fairyInfo, fairyForward, h1, h2]

/-- C5 witness: the amended statement on a concrete closed handle. -/
theorem C5_amended_closed_handle_witness :
    fairyInfo ⟨none, none, 0, 0, [], 0⟩ = InfoRes.err Err.invalidRequest :=
  (C5_amended_closed_handle [] (fun _ _ => false)
    ⟨none, none, 0, 0, [], 0⟩ rfl rfl).2.2.1

/-! ## Bounded-Queue strategy (`QueuePool`, C6 and C7)

`QueuePool` stores idle records in `self._pool = queue.Queue(pool_size)`.
The strategy-level state below carries the queue parameters and contents,
the `_overflow` counter, a fresh-record supply, and a ghost `outstanding`
tally of records currently checked out (successful `do_get`s minus
returns).  `do_get` is modelled at quiescence — single caller, no
concurrent waiter — so the blocking `get(True, timeout)` on an empty queue
simply ends in `Empty` after the timeout, and the double-checked branches
the source re-evaluates under `_overflow_lock` coincide with the first
check. -/

/-- `QueuePool` state (src/pycassa/pool.py lines 557-563).  Records are
identified by the numbers `0, 1, 2, …` in creation order; `next` is the
next identity `create_connection` hands out. -/
structure QPState where
  /-- `self._pool.maxsize` = the `pool_size` construction parameter -/
  maxsize : Nat
  /-- `self._max_overflow` -/
  max_overflow : Int
  /-- contents of `self._pool`, front of the list = head of the FIFO -/
  idle : List Nat
  /-- `self._overflow`, initialised to `0 - pool_size` -/
  overflow : Int
  /-- ghost: records currently checked out of this strategy -/
  outstanding : Nat
  /-- fresh-record supply -/
  next : Nat
  deriving DecidableEq, Repr

/-- Modelled from the spec: the queue module (`pycassa/queue.py`) is not
under src/.  Per the spec the idle store is a bounded FIFO of capacity
`pool_size`, and per the `QueuePool` docstring in src/pycassa/pool.py a
`pool_size` of 0 means "no size limit" — Python's `Queue` treats
`maxsize <= 0` as an infinite queue.  So `put(conn, False)` raises `Full`
exactly when the queue is bounded (`0 < maxsize`) and at capacity. -/
def queuePutFull (maxsize qlen : Nat) : Bool :=
  decide (0 < maxsize) && decide (maxsize ≤ qlen)

/-- `QueuePool.do_return_conn` (src/pycassa/pool.py lines 575-586): try a
non-blocking put of the record into the idle queue; on `Full`, decrement
`_overflow` and drop the record (it is closed by the finaliser). -/
def do_return_conn (st : QPState) (c : Nat) : QPState :=
  if queuePutFull st.maxsize st.idle.length then
    { st with overflow := st.overflow - 1 }
  else
    { st with idle := st.idle ++ [c] }

/-- A return at the pool level: `do_return_conn` plus the ghost
bookkeeping that one fewer record is checked out. -/
def returnStep (st : QPState) (c : Nat) : QPState :=
  { do_return_conn st c with outstanding := st.outstanding - 1 }

/-- `QueuePool.do_get` (src/pycassa/pool.py lines 588-619) at quiescence:
serve the FIFO head when the idle queue is non-empty; on `Empty`, fail with
`TimeoutError` when the overflow capacity is exhausted
(`max_overflow > -1 and overflow >= max_overflow`, the source's `wait`
condition), otherwise create a fresh record and increment `_overflow`. -/
def do_get (st : QPState) : QPState × Except Err Nat :=
  match st.idle with
  | c :: rest =>
      ({ st with idle := rest, outstanding := st.outstanding + 1 },
        Except.ok c)
  | [] =>
      if st.max_overflow > -1 ∧ st.overflow ≥ st.max_overflow then
        (st, Except.error Err.timeout)
      else
        ({ st with overflow := st.overflow + 1,
                   outstanding := st.outstanding + 1,
                   next := st.next + 1 },
          Except.ok st.next)

/-- `QueuePool.__init__` (src/pycassa/pool.py lines 557-563): empty idle
queue, `_overflow = 0 - pool_size`. -/
def qpInit (pool_size : Nat) (max_overflow : Int) : QPState :=
  { maxsize := pool_size, max_overflow := max_overflow, idle := [],
    overflow := -(pool_size : Int), outstanding := 0, next := 0 }

/-- One quiescent pool transition: an acquisition or a return of a
checked-out record. -/
inductive QPStep : QPState → QPState → Prop
  | get (st : QPState) : QPStep st (do_get st).1
  | ret (st : QPState) (c : Nat) (h : 0 < st.outstanding) :
      QPStep st (returnStep st c)

/-- States a `QueuePool` built with the given parameters can reach through
quiescent acquisitions and returns. -/
inductive QPReach (ps : Nat) (mo : Int) : QPState → Prop
  | init : QPReach ps mo (qpInit ps mo)
  | step {st st' : QPState} : QPReach ps mo st → QPStep st st' →
      QPReach ps mo st'

/-- `QueuePool.checkedout` (src/pycassa/pool.py lines 649-650):
`maxsize - qsize + overflow`. -/
def checkedout (st : QPState) : Int :=
  (st.maxsize : Int) - st.idle.length + st.overflow

theorem qpInvariant_step {st st' : QPState} (hs : QPStep st st')
    (h : (st.outstanding : Int) =
      (st.maxsize : Int) - st.idle.length + st.overflow) :
    st'.maxsize = st.maxsize ∧ st'.max_overflow = st.max_overflow ∧
    (st'.outstanding : Int) =
      (st'.maxsize : Int) - st'.idle.length + st'.overflow := by
  cases hs with
  | get =>
      cases hi : st.idle with
      | cons c rest =>
          simp [do_get, hi] at h ⊢
          omega
      | nil =>
          by_cases hw : st.max_overflow > -1 ∧ st.overflow ≥ st.max_overflow
          · simp [do_get, hi, hw] at h ⊢
            omega
          · simp [do_get, hi, hw] at h ⊢
            omega
  | ret c hout =>
      by_cases hf : queuePutFull st.maxsize st.idle.length = true
      · simp [returnStep, do_return_conn, hf] at h ⊢
        omega
      · simp [returnStep, do_return_conn, hf] at h ⊢
        omega

theorem qpInvariant (ps : Nat) (mo : Int) (st : QPState)
    (h : QPReach ps mo st) :
    st.maxsize = ps ∧ st.max_overflow = mo ∧
    (st.outstanding : Int) =
      (st.maxsize : Int) - st.idle.length + st.overflow := by
  induction h with
  | init => simp [qpInit]
  | step hr hs ih =>
      obtain ⟨h1, h2, h3⟩ := ih
      obtain ⟨g1, g2, g3⟩ := qpInvariant_step hs h3
      exact ⟨g1.trans h1, g2.trans h2, g3⟩

/-- C6, counterexample.  A freshly built `QueuePool(pool_size=2)` is a
reachable quiescent state with `overflow = -2`:
`idle.size + checkedout = 0 + (2 - 0 + (-2)) = 0`, while the claimed
`pool_size + max(overflow, 0)` is `2 + 0 = 2`. -/
theorem C6_counterexample :
    QPReach 2 0 (qpInit 2 0) ∧
    ¬(((qpInit 2 0).idle.length : Int) + checkedout (qpInit 2 0) =
        (2 : Int) + max (qpInit 2 0).overflow 0) := by
  exact ⟨QPReach.init, by decide⟩

/-- C6, amended: for a Bounded-Queue pool at quiescence, every reachable
state satisfies `idle.size + checkedout = pool_size + overflow` with the
signed overflow — not `max(overflow, 0)` — and the `checkedout` metric
agrees with the true number of records checked out. -/
theorem C6_amended_quiescence_identity (ps : Nat) (mo : Int) (st : QPState)
    (h : QPReach ps mo st) :
    (st.idle.length : Int) + checkedout st = (ps : Int) + st.overflow ∧
    checkedout st = (st.outstanding : Int) := by
  obtain ⟨h1, _, h3⟩ := qpInvariant ps mo st h
  constructor
  · simp [checkedout, h1]
    omega
  · simp [checkedout]
    omega

/-- C6 witness: the amended identity at the freshly built pool. -/
theorem C6_amended_quiescence_identity_witness :
    ((qpInit 2 0).idle.length : Int) + checkedout (qpInit 2 0) =
      (2 : Int) + (qpInit 2 0).overflow :=
  (C6_amended_quiescence_identity 2 0 (qpInit 2 0) QPReach.init).1

/-- `NullPool.do_get` (src/pycassa/pool.py lines 673-674): every acquire
creates a fresh record; `NullPool.do_return_conn` (lines 667-668) closes
the record instead of storing it. -/
def nullPool_do_get (next : Nat) : Nat × Nat := (next + 1, next)

/-- C7, counterexample.  `QueuePool(pool_size=0, max_overflow=-1)`: acquire
creates record 0; returning it stores it in the (infinite) idle queue; the
next acquire serves record 0 from the idle store without creating —
unlike the Null strategy, which creates on every acquire. -/
theorem C7_counterexample :
    (do_return_conn (do_get (qpInit 0 (-1))).1 0).idle = [0] ∧
    (do_get (do_return_conn (do_get (qpInit 0 (-1))).1 0)).2 =
      Except.ok 0 ∧
    (do_get (do_return_conn (do_get (qpInit 0 (-1))).1 0)).1.next =
      (do_return_conn (do_get (qpInit 0 (-1))).1 0).next := by
  refine ⟨rfl, rfl, rfl⟩

/-- C7, amended: a Bounded-Queue pool with `pool_size = 0` and
`max_overflow = -1` is an unbounded pool, not a Null pool: its idle queue
has no size limit, so a release always stores the record into the idle
store, and an acquire creates a fresh record only when the idle store is
empty — when it is non-empty the acquire serves the stored record. -/
theorem C7_amended_unbounded_idle (st : QPState) (c : Nat)
    (h1 : st.maxsize = 0) (h2 : st.max_overflow = -1) :
    (do_return_conn st c).idle = st.idle ++ [c] ∧
    (st.idle = [] →
      do_get st = ({ st with overflow := st.overflow + 1,
                             outstanding := st.outstanding + 1,
                             next := st.next + 1 }, Except.ok st.next)) ∧
    (∀ d rest, st.idle = d :: rest →
      do_get st = ({ st with idle := rest,
                             outstanding := st.outstanding + 1 },
        Except.ok d)) := by
  refine ⟨?_, ?_, ?_⟩
  · simp [do_return_conn, queuePutFull, h1]
  · intro hi
    simp [do_get, hi, h2]
  · intro d rest hi
    simp [do_get, hi]

/-- C7 witness: the amended behaviour at a concrete unbounded pool state
with one idle record. -/
theorem C7_amended_unbounded_idle_witness :
    (do_return_conn ⟨0, -1, [4], 1, 0, 5⟩ 9).idle = [4] ++ [9] :=
  (C7_amended_unbounded_idle ⟨0, -1, [4], 1, 0, 5⟩ 9 rfl rfl).1

/-! ## `first_connect` / `connect` listener events (C8) -/

/-- A listener invocation: `first_connect` or `connect`, by listener. -/
inductive LEv where
  | fc (l : Nat)
  | conn (l : Nat)
  deriving DecidableEq, Repr

def isConnEv : LEv → Bool
  | .fc _ => false
  | .conn _ => true

/-- The pool fields driving `first_connect` / `connect` dispatch:
`_on_first_connect` (an instance attribute that
`_ConnectionRecord.__init__` destructively pops — `none` models the popped
attribute), `_on_connect`, the number of records created so far, and the
log of listener invocations in order. -/
structure LPoolSt where
  on_first_connect : Option (List Nat)
  on_connect : List Nat
  nRecords : Nat
  events : List LEv
  deriving DecidableEq, Repr

/-- The two record-side occasions on which these listeners fire. -/
inductive LOp where
  | createRecord
  | reconnect
  deriving DecidableEq, Repr

/-- `createRecord` is `_ConnectionRecord.__init__` (src/pycassa/pool.py
lines 188-199): `pool.__dict__.pop('_on_first_connect', None)`, fire the
popped `first_connect` listeners in order, then fire the `connect`
listeners.  `reconnect` is the re-opening branch of
`_ConnectionRecord.get_connection` (lines 223-241), which fires the
`connect` listeners; it needs an existing record, so with no record it is
a no-op. -/
def lstep (st : LPoolSt) : LOp → LPoolSt
  | .createRecord =>
      match st.on_first_connect with
      | some ls =>
          { st with on_first_connect := none,
                    nRecords := st.nRecords + 1,
                    events := st.events ++ ls.map LEv.fc
                      ++ st.on_connect.map LEv.conn }
      | none =>
          { st with nRecords := st.nRecords + 1,
                    events := st.events ++ st.on_connect.map LEv.conn }
  | .reconnect =>
      if st.nRecords = 0 then st
      else { st with events := st.events ++ st.on_connect.map LEv.conn }

def lrun (st : LPoolSt) : List LOp → LPoolSt
  | [] => st
  | op :: ops => lrun (lstep st op) ops

/-- A pool as constructed (src/pycassa/pool.py lines 94-100): both listener
sequences registered, no records, no events yet. -/
def linit (fc cs : List Nat) : LPoolSt :=
  { on_first_connect := some fc, on_connect := cs, nRecords := 0,
    events := [] }

/-- Invariant tying the drained `_on_first_connect` attribute to the shape
of the event log. -/
def lInv (fc : List Nat) (st : LPoolSt) : Prop :=
  if st.nRecords = 0 then
    st.on_first_connect = some fc ∧ st.events = []
  else
    st.on_first_connect = none ∧
      ∃ rest, st.events = fc.map LEv.fc ++ rest ∧
        ∀ e ∈ rest, isConnEv e = true

theorem lInv_step (fc : List Nat) (st : LPoolSt) (op : LOp)
    (h : lInv fc st) : lInv fc (lstep st op) := by
  cases op with
  | createRecord =>
      by_cases h0 : st.nRecords = 0
      · rw [lInv, if_pos h0] at h
        obtain ⟨hofc, hev⟩ := h
        simp [lstep, hofc, lInv, hev]
        exact fun a _ => rfl
      · rw [lInv, if_neg h0] at h
        obtain ⟨hofc, rest, hev, hco⟩ := h
        simp [lstep, hofc, lInv, h0]
        refine ⟨rest ++ st.on_connect.map LEv.conn, by simp [hev], ?_⟩
        intro e he
        rcases List.mem_append.mp he with he | he
        · exact hco e he
        · obtain ⟨l, _, rfl⟩ := List.mem_map.mp he
          rfl
  | reconnect =>
      by_cases h0 : st.nRecords = 0
      · simpa [lstep, h0] using h
      · rw [lInv, if_neg h0] at h
        obtain ⟨hofc, rest, hev, hco⟩ := h
        simp [lstep, h0, lInv, hofc]
        refine ⟨rest ++ st.on_connect.map LEv.conn, by simp [hev], ?_⟩
        intro e he
        rcases List.mem_append.mp he with he | he
        · exact hco e he
        · obtain ⟨l, _, rfl⟩ := List.mem_map.mp he
          rfl

theorem lInv_run (fc : List Nat) (ops : List LOp) (st : LPoolSt)
    (h : lInv fc st) : lInv fc (lrun st ops) := by
  induction ops generalizing st with
  | nil => exact h
  | cons op ops ih => exact ih _ (lInv_step fc st op h)

/-- C8: over any sequence of record creations and reconnects, the
`first_connect` observers fire exactly once for the pool's lifetime — as a
block, in registration order, when the first record opens its session —
and every `first_connect` invocation comes strictly before every `connect`
invocation: the event log is exactly the `first_connect` block followed by
`connect` events only (and stays empty while no record was created). -/
theorem C8_first_connect_once_before_connect (fc cs : List Nat)
    (ops : List LOp) :
    ((lrun (linit fc cs) ops).nRecords = 0 →
      (lrun (linit fc cs) ops).events = []) ∧
    (0 < (lrun (linit fc cs) ops).nRecords →
      ∃ rest, (lrun (linit fc cs) ops).events = fc.map LEv.fc ++ rest ∧
        ∀ e ∈ rest, isConnEv e = true) := by
  have h := lInv_run fc ops (linit fc cs) (by simp [lInv, linit])
  constructor
  · intro h0
    rw [lInv, if_pos h0] at h
    exact h.2
  · intro h0
    rw [lInv, if_neg (Nat.pos_iff_ne_zero.mp h0)] at h
    exact h.2

/-- C8 witness: one listener of each kind, one record created then one
reconnect: the log is the `first_connect` block followed by `connect`
events. -/
theorem C8_first_connect_once_before_connect_witness :
    ∃ rest,
      (lrun (linit [3] [4]) [LOp.createRecord, LOp.reconnect]).events =
        [3].map LEv.fc ++ rest ∧ ∀ e ∈ rest, isConnEv e = true :=
  (C8_first_connect_once_before_connect [3] [4]
    [LOp.createRecord, LOp.reconnect]).2 (by decide)

/-! ## Thread-local handle cache (C9) -/

/-- The base-pool fields behind `connect` / `return_conn`
(src/pycassa/pool.py lines 128-146) for one thread: `_use_threadlocal`,
the thread's `_threadconns.current` weak reference (identified by the
cached handle's number; the claims concern a still-live cached handle), and
a fresh-handle supply. -/
structure TLSt where
  use_threadlocal : Bool
  current : Option Nat
  nextHandle : Nat
  deriving DecidableEq, Repr

/-- `Pool.return_conn` (src/pycassa/pool.py lines 143-146): whenever the
pool is thread-local and the calling thread has a cached weak reference,
delete it — regardless of which record `rec` is being returned or which
handle the cache points to — then hand `rec` to `do_return_conn`
(strategy level, modelled separately). -/
def pool_return_conn (st : TLSt) (rec : Nat) : TLSt :=
  if st.use_threadlocal = true ∧ st.current.isSome = true then
    { st with current := none }
  else st

/-- `Pool.connect` (src/pycassa/pool.py lines 128-141): without
thread-local mode, always build a fresh `_ConnectionFairy`; in thread-local
mode return the thread's cached live handle if any, else build a fresh
handle and cache a weak reference to it.  Returns the handle the caller
gets. -/
def pool_connect (st : TLSt) : TLSt × Nat :=
  if st.use_threadlocal = false then
    ({ st with nextHandle := st.nextHandle + 1 }, st.nextHandle)
  else
    match st.current with
    | some h => (st, h)
    | none =>
        ({ st with current := some st.nextHandle,
                   nextHandle := st.nextHandle + 1 }, st.nextHandle)

/-- C9: in thread-local mode, returning any record deletes the calling
thread's cached handle weak reference unconditionally — even when the cache
holds a different, still-live handle `h` unrelated to the returned record
`rec` — so the next `connect()` on the thread builds a fresh handle
instead of reusing `h`. -/
theorem C9_threadlocal_cache_cleared (st : TLSt) (hid rec : Nat)
    (htl : st.use_threadlocal = true) (hcur : st.current = some hid)
    (hfresh : hid ≠ st.nextHandle) :
    (pool_return_conn st rec).current = none ∧
    (pool_connect (pool_return_conn st rec)).2 = st.nextHandle ∧
    (pool_connect (pool_return_conn st rec)).2 ≠ hid := by
  have h1 : pool_return_conn st rec = { st with current := none } := by
    simp [pool_return_conn, htl, hcur]
  refine ⟨by simp [h1], ?_, ?_⟩
  · simp [h1, pool_connect, htl]
  · simp [h1, pool_connect, htl]
    exact fun e => hfresh e.symm

/-- C9 witness: cached handle 3, fresh handles from 7: after a return, the
next connect hands out handle 7, not the still-live 3. -/
theorem C9_threadlocal_cache_cleared_witness :
    (pool_connect (pool_return_conn ⟨true, some 3, 7⟩ 0)).2 = 7 :=
  (C9_threadlocal_cache_cleared ⟨true, some 3, 7⟩ 3 0 rfl rfl
    (by decide)).2.1

/-! ## `add_listener` after the `first_connect` drain (C10) -/

/-- An observer as `as_interface` classifies it: its identity and which of
the four `PoolListener` methods it implements. -/
structure Obs where
  oid : Nat
  has_connect : Bool
  has_first_connect : Bool
  has_checkout : Bool
  has_checkin : Bool
  deriving DecidableEq, Repr

/-- The pool's listener registry (src/pycassa/pool.py lines 94-99):
`listeners` plus the four per-event sequences; `_on_first_connect` is
`none` once `_ConnectionRecord.__init__` has popped it. -/
structure Reg where
  listeners : List Nat
  on_connect : List Nat
  on_first_connect : Option (List Nat)
  on_checkout : List Nat
  on_checkin : List Nat
  deriving DecidableEq, Repr

/-- The tail of `Pool.add_listener` after the `first_connect` step: the
`checkout` and `checkin` registrations. -/
def finishAdd (st : Reg) (o : Obs) : Reg :=
  let st1 := if o.has_checkout = true
    then { st with on_checkout := st.on_checkout ++ [o.oid] } else st
  if o.has_checkin = true
    then { st1 with on_checkin := st1.on_checkin ++ [o.oid] } else st1

/-- `Pool.add_listener` (src/pycassa/pool.py lines 160-180): append to
`listeners`, then to each per-event sequence the observer implements, in
the source's order connect, first_connect, checkout, checkin.  When the
observer implements `first_connect` but the `_on_first_connect` attribute
was already popped by the first record, `self._on_first_connect.append`
raises `AttributeError`; the mutations already performed stay (Python
exceptions do not roll back). -/
def add_listener (st : Reg) (o : Obs) : Reg × Option Err :=
  let st1 : Reg := { st with listeners := st.listeners ++ [o.oid] }
  let st2 : Reg := if o.has_connect = true
    then { st1 with on_connect := st1.on_connect ++ [o.oid] } else st1
  if o.has_first_connect = true then
    match st2.on_first_connect with
    | some ls =>
        (finishAdd { st2 with on_first_connect := some (ls ++ [o.oid]) } o,
          none)
    | none => (st2, some Err.attributeError)
  else (finishAdd st2 o, none)

/-- C10: once the first record has opened its session (popping the pool's
`_on_first_connect` sequence), `add_listener` with an observer implementing
`first_connect` raises `AttributeError`; the observer is registered for no
event sequence other than (possibly) `connect`, whose registration had
already happened before the raise — in particular `on_checkout` and
`on_checkin` are untouched and no `first_connect` registration exists. -/
theorem C10_add_listener_after_drain (st : Reg) (o : Obs)
    (hdrained : st.on_first_connect = none)
    (hfc : o.has_first_connect = true) :
    (add_listener st o).2 = some Err.attributeError ∧
    (add_listener st o).1.on_first_connect = none ∧
    (add_listener st o).1.on_checkout = st.on_checkout ∧
    (add_listener st o).1.on_checkin = st.on_checkin := by
  by_cases hc : o.has_connect = true <;>
    simp [add_listener, hdrained, hfc, hc]

/-- C10 witness: an observer implementing all four methods added to a pool
whose `first_connect` sequence was already drained. -/
theorem C10_add_listener_after_drain_witness :
    (add_listener ⟨[1], [1], none, [1], [1]⟩ ⟨2, true, true, true, true⟩).2 =
      some Err.attributeError :=
  (C10_add_listener_after_drain ⟨[1], [1], none, [1], [1]⟩
    ⟨2, true, true, true, true⟩ rfl rfl).1

end Pycassa
